import Mathlib

/-!
Shallow embedding of the chorale-solver core (chorale-solver.cpp, chorale-constants.h).
C++ `int` values are modelled as `Int`; `std::vector<int>` / Stanford `Vector<int>` as
`List Int`.  An out-of-bounds container access (undefined behaviour in the source) is
modelled by propagating `none` / `VoiceResult.ub`.  The process-wide global `majorKey`
is threaded as an explicit parameter into every function that reads it.
-/

namespace ChoraleSolver

/-- chorale-constants.h: per-voice range bounds. -/
def BASS_MIN : Int := 0

def BASS_MAX : Int := 24

def TENOR_MIN : Int := 12

def TENOR_MAX : Int := 31

def ALTO_MIN : Int := 19

def ALTO_MAX : Int := 36

def SOPRANO_MIN : Int := 24

def SOPRANO_MAX : Int := 43

/-- C++ `v[i]` with an `int` index: `none` models the out-of-bounds access. -/
def listAt {α : Type} (l : List α) (i : Int) : Option α :=
  if i < 0 then none else l.get? i.toNat

/-- `setUpChordRels`: index c of the result lists the chords permitted to follow chord c.
In a minor key the borrowed major-VII chord is index 8: `{3}` is appended and 8 is added
to the successors of chord 1. -/
def setUpChordRels (majorKey : Bool) : List (List Int) :=
  let chordRelations : List (List Int) :=
    [[], [1, 2, 3, 4, 5, 6, 7], [5, 7], [4, 6], [1, 2, 5], [1, 6], [2, 4], [1, 5]]
  if !majorKey then
    let c := chordRelations ++ [[3]]
    c.set 1 (c.getD 1 [] ++ [8])
  else chordRelations

/-- `notInScale`: true when `nextNote` is NOT diatonic to the key of `startNote`.
The C++ truncating `%` followed by the `while (distance < 0) distance += 12` loop
computes exactly the Euclidean remainder `(nextNote - startNote) % 12`. -/
def notInScale (nextNote startNote : Int) (majorKey : Bool) : Bool :=
  let distance := (nextNote - startNote) % 12
  if majorKey then
    distance = 1 ∨ distance = 3 ∨ distance = 6 ∨ distance = 8 ∨ distance = 10
  else
    distance = 1 ∨ distance = 4 ∨ distance = 6 ∨ distance = 9

/-- The `while (distance < 0) distance += 12` loop at the top of `distanceToChord`. -/
def normalizeDistance (distance : Int) : Int :=
  if distance < 0 then normalizeDistance (distance + 12) else distance
termination_by (-distance).toNat
decreasing_by omega

/-- `distanceToChord`: converts a key-number distance from the starting note into a scale
degree (0 = sentinel "no root here").  The global `majorKey` is an explicit parameter.
Callers that pre-reduce the distance with the C++ truncating `%` are modelled by passing
the raw difference: `normalizeDistance` followed by `% 12` yields the same residue. -/
def distanceToChord (majorKey : Bool) (distance : Int) : Int :=
  let d := (normalizeDistance distance) % 12
  if majorKey then
    if d = 0 then 1 else if d = 2 then 2 else if d = 4 then 3 else if d = 5 then 4
    else if d = 7 then 5 else if d = 9 then 6 else if d = 11 then 7 else 0
  else
    if d = 0 then 1 else if d = 2 then 2 else if d = 3 then 3 else if d = 5 then 4
    else if d = 7 then 5 else if d = 8 then 6 else if d = 11 then 7
    else if d = 10 then 8 else 0

/-- Recursive `createChordProgression` (the helper overload).  The accumulator `chords`
is the caller's `Vector<int>&`: the returned list is its final state, under success and
failure alike, so the source's in-place `push_back`/`remove` mutations are visible to
the caller exactly as in C++.  `chords.remove(index)` is `List.eraseIdx chords index`.
The source's range-based for-loop over `chordRelations[currentChord]` executes its body
at most once, because the relation lists (built by `setUpChordRels`) hold no duplicates;
it is embedded as a membership test guarding the single attempt.  The first-inversion
degree `(nextChord - 2) % 12` uses the Euclidean remainder: it differs from the C++
truncating remainder only when `nextChord < 2`, where both conventions produce a value
(11 resp. -1, 10 resp. -2) that occurs in no relation list, so the behaviour agrees.
`none` models an out-of-bounds access. -/
def createChordProgressionRec (majorKey : Bool) (bass : List Int) (chords : List Int)
    (chordRelations : List (List Int)) (index : Nat) (startingNote currentChord : Int) :
    Option (Bool × List Int) :=
  -- Base case - chord before last must be V
  if index = bass.length - 2 then
    if currentChord ≠ 5 then some (false, chords)
    else some (true, chords ++ [1])
  else
    match h1 : listAt bass ((index : Int) + 1) with
    | none => none
    | some b1 =>
      let nextChord0 := distanceToChord majorKey (b1 - startingNote)
      -- VII should never be in root position: change it to V (first inversion of V).
      let nextChord := if nextChord0 = 7 then 5 else nextChord0
      match listAt chordRelations currentChord with
      | none => none
      | some cands =>
        let rootAttempt : Option (Bool × List Int) :=
          if nextChord ∈ cands then
            match createChordProgressionRec majorKey bass (chords ++ [nextChord])
                chordRelations (index + 1) startingNote nextChord with
            | none => none
            | some (true, ch) => some (true, ch)
            | some (false, ch) => some (false, ch.eraseIdx index)
          else some (false, chords)
        match rootAttempt with
        | none => none
        | some (true, ch) => some (true, ch)
        | some (false, chords1) =>
          -- Try the bass note as the third degree of the chord (1st inversion).
          let firstInv0 := (nextChord - 2) % 12
          match
            (if nextChord = 2 then
              if majorKey then some (7 : Int)
              else
                match listAt bass ((index : Int) + 2) with
                | none => none
                | some b2 =>
                  let nextNextChord := distanceToChord majorKey (b2 - startingNote)
                  if nextNextChord = 3 then some (8 : Int) else some (7 : Int)
            else some firstInv0) with
          | none => none
          | some firstInvChord =>
            if firstInvChord ∈ cands then
              match createChordProgressionRec majorKey bass (chords1 ++ [firstInvChord])
                  chordRelations (index + 1) startingNote firstInvChord with
              | none => none
              | some (true, ch) => some (true, ch)
              | some (false, ch) => some (false, ch.eraseIdx index)
            else some (false, chords1)
termination_by bass.length - index
decreasing_by
  all_goals
    unfold listAt at h1
    split at h1
    · exact absurd h1 (by simp)
    · have hb := (List.get?_eq_some.mp h1).1
      omega

/-- Wrapper `createChordProgression`: starts the chord sequence with a I chord. -/
def createChordProgression (majorKey : Bool) (bass : List Int) (chords : List Int)
    (chordRelations : List (List Int)) : Option (Bool × List Int) :=
  match listAt bass 0 with
  | none => none
  | some startingNote =>
    createChordProgressionRec majorKey bass (chords ++ [1]) chordRelations 0
      startingNote 1


/-- `fillMajorChordVector`: appends the root, root+4 and root+7 of a major chord, then
repeats an octave up (the last interval is 5), until a value passes `SOPRANO_MAX`.
Each nested C++ `if` that fails falls back to the `while` test, which then also fails,
so the failing branches return the pushed-so-far vector directly. -/
def fillMajorChordVector (v : List Int) (index : Int) : List Int :=
  if index ≤ SOPRANO_MAX then
    if index + 4 ≤ SOPRANO_MAX then
      if index + 7 ≤ SOPRANO_MAX then
        fillMajorChordVector (v ++ [index, index + 4, index + 7]) (index + 12)
      else v ++ [index, index + 4]
    else v ++ [index]
  else v
termination_by (SOPRANO_MAX + 1 - index).toNat
decreasing_by simp only [SOPRANO_MAX] at *; omega

/-- `fillMinorChordVector`: root, root+3, root+7, repeating an octave up. -/
def fillMinorChordVector (v : List Int) (index : Int) : List Int :=
  if index ≤ SOPRANO_MAX then
    if index + 3 ≤ SOPRANO_MAX then
      if index + 7 ≤ SOPRANO_MAX then
        fillMinorChordVector (v ++ [index, index + 3, index + 7]) (index + 12)
      else v ++ [index, index + 3]
    else v ++ [index]
  else v
termination_by (SOPRANO_MAX + 1 - index).toNat
decreasing_by simp only [SOPRANO_MAX] at *; omega

/-- `fillDimChordVector`: root, root+3, root+6, repeating an octave up. -/
def fillDimChordVector (v : List Int) (index : Int) : List Int :=
  if index ≤ SOPRANO_MAX then
    if index + 3 ≤ SOPRANO_MAX then
      if index + 6 ≤ SOPRANO_MAX then
        fillDimChordVector (v ++ [index, index + 3, index + 6]) (index + 12)
      else v ++ [index, index + 3]
    else v ++ [index]
  else v
termination_by (SOPRANO_MAX + 1 - index).toNat
decreasing_by simp only [SOPRANO_MAX] at *; omega

/-- The `while (startNote >= 12) startNote -= 12` loop of `establishNotesInChords`. -/
def normalizeStartNote (startNote : Int) : Int :=
  if startNote ≥ 12 then normalizeStartNote (startNote - 12) else startNote
termination_by startNote.toNat
decreasing_by omega

/-- The `for (int i = 1; i <= 7; ++i)` loop body of `establishNotesInChords` for a major
key, with the loop-carried `distance` made explicit. -/
def establishLoopMajor (startNote : Int) (notesInChords : List (List Int)) (i : Nat)
    (distance : Int) : List (List Int) :=
  if i ≤ 7 then
    let n1 := if i = 1 ∨ i = 4 ∨ i = 5 then
      notesInChords.set i (fillMajorChordVector (notesInChords.getD i []) (startNote + distance))
      else notesInChords
    let n2 := if i = 2 ∨ i = 3 ∨ i = 6 then
      n1.set i (fillMinorChordVector (n1.getD i []) (startNote + distance))
      else n1
    let n3 := if i = 7 then
      n2.set i (fillDimChordVector (n2.getD i []) (startNote + distance))
      else n2
    let d1 := distance + 1
    let d2 := if i ≠ 3 then d1 + 1 else d1
    establishLoopMajor startNote n3 (i + 1) d2
  else notesInChords
termination_by 8 - i

/-- The `for (int i = 1; i <= 8; ++i)` loop body of `establishNotesInChords` for a minor
key, with the loop-carried `distance` made explicit. -/
def establishLoopMinor (startNote : Int) (notesInChords : List (List Int)) (i : Nat)
    (distance : Int) : List (List Int) :=
  if i ≤ 8 then
    let n1 := if i = 3 ∨ i = 5 ∨ i = 6 ∨ i = 8 then
      notesInChords.set i (fillMajorChordVector (notesInChords.getD i []) (startNote + distance))
      else notesInChords
    let n2 := if i = 1 ∨ i = 4 then
      n1.set i (fillMinorChordVector (n1.getD i []) (startNote + distance))
      else n1
    let n3 := if i = 2 ∨ i = 7 then
      n2.set i (fillDimChordVector (n2.getD i []) (startNote + distance))
      else n2
    let d1 := distance + 1
    let d2 := if i ≠ 2 ∧ i ≠ 5 then d1 + 1 else d1
    let d3 := if i = 6 then d2 + 1 else d2
    let d4 := if i = 7 then d3 - 2 else d3
    establishLoopMinor startNote n3 (i + 1) d4
  else notesInChords
termination_by 9 - i

/-- `establishNotesInChords`: catalog mapping each degree (list index 1..7, plus 8 in a
minor key) to the vector of all notes of that degree's triad up to `SOPRANO_MAX`. -/
def establishNotesInChords (startNote : Int) (majorKey : Bool) : List (List Int) :=
  let s := normalizeStartNote startNote
  let notesInChords : List (List Int) := List.replicate 9 []
  if majorKey then establishLoopMajor s notesInChords 1 0
  else establishLoopMinor s notesInChords 1 0

/-- `nextLowerNote`, binary-search loop.  `lhs` and `rhs` are the C++ `int` variables;
in every reachable call both are nonnegative whenever the average is computed, so the
Euclidean `/` here agrees with the C++ truncating division.  The final `chord[rhs]`
(an out-of-bounds access when `rhs` ends at -1) is `listAt chord rhs`. -/
def nextLowerNoteGo (chord : List Int) (note : Int) (lhs rhs : Int) : Option Int :=
  if lhs ≤ rhs then
    let avg := (lhs + rhs) / 2
    match listAt chord avg with
    | none => none
    | some v =>
      if v = note then some v
      else if v < note then nextLowerNoteGo chord note (avg + 1) rhs
      else nextLowerNoteGo chord note lhs (avg - 1)
  else listAt chord rhs
termination_by (rhs + 1 - lhs).toNat
decreasing_by all_goals omega

/-- `nextLowerNote`: highest note of the sorted `chord` that is at most `note`. -/
def nextLowerNote (chord : List Int) (note : Int) : Option Int :=
  nextLowerNoteGo chord note 0 ((chord.length : Int) - 1)

/-- `nextHigherNote`, binary-search loop; the average rounds up.  The final
`chord[lhs]` (out of bounds when `lhs` ends past the last index) is `listAt chord lhs`. -/
def nextHigherNoteGo (chord : List Int) (note : Int) (lhs rhs : Int) : Option Int :=
  if lhs ≤ rhs then
    let avg := (lhs + rhs + 1) / 2
    match listAt chord avg with
    | none => none
    | some v =>
      if v = note then some v
      else if v < note then nextHigherNoteGo chord note (avg + 1) rhs
      else nextHigherNoteGo chord note lhs (avg - 1)
  else listAt chord lhs
termination_by (rhs + 1 - lhs).toNat
decreasing_by all_goals omega

/-- `nextHigherNote`: lowest note of the sorted `chord` that is at least `note`. -/
def nextHigherNote (chord : List Int) (note : Int) : Option Int :=
  nextHigherNoteGo chord note 0 ((chord.length : Int) - 1)

/-- Outcome of `canCreateChorale` / `canCreateChoraleHelper`.  `found` carries the final
soprano/alto/tenor accumulators of a successful run; `notFound` is the C++ `false`
return; `ub` marks a run that commits undefined behaviour (out-of-bounds access or
`back()` on an empty vector), after which the C++ program has no defined result. -/
inductive VoiceResult where
  | ub : VoiceResult
  | notFound : VoiceResult
  | found : List Int → List Int → List Int → VoiceResult
deriving DecidableEq, Repr

/-- `canCreateChoraleHelper`: extends the three upper voices chord by chord.  The C++
mutates `soprano`/`alto`/`tenor` through references and shares one recursion site after
the two motion branches; here each branch recurses directly with the pushed lists and
the branch's final `LTCorrected` value, which is the same call.  Reads of
`bass[index - 1]` with `index = 0` would be out of bounds, hence the `ub` guard. -/
def canCreateChoraleHelper (majorKey : Bool) (chords : List Int)
    (notesInChords : List (List Int)) (soprano alto tenor : List Int) (bass : List Int)
    (index : Nat) (LTCorrected : Bool) : VoiceResult :=
  -- Base case - if index == chords.size(), then we have finished
  if index ≥ chords.length then .found soprano alto tenor
  else
    match soprano.getLast?, alto.getLast?, tenor.getLast? with
    | some sB, some aB, some tB =>
      -- Make sure parts are not going out of range
      if sB > SOPRANO_MAX ∨ aB > ALTO_MAX ∨ tB > TENOR_MAX ∨ sB < SOPRANO_MIN ∨
          aB < ALTO_MIN ∨ tB < TENOR_MIN then .notFound
      else
        if index = 0 then .ub
        else
          match listAt bass index, listAt bass ((index : Int) - 1) with
          | some bi, some bp =>
            -- If the bass is moving down, or moving up a distance of 5
            if bi < bp ∨ bi - bp = 5 then
              match listAt chords index with
              | none => .ub
              | some ci =>
                match listAt notesInChords ci with
                | none => .ub
                | some chordNotes =>
                  let sTarget := if LTCorrected then sB - 3 else sB
                  match nextHigherNote chordNotes sTarget, nextHigherNote chordNotes aB,
                      nextHigherNote chordNotes tB with
                  | some s1, some a1, some t1 =>
                    -- Make sure parts are not going out of range
                    if s1 > SOPRANO_MAX ∨ a1 > ALTO_MAX ∨ t1 > TENOR_MAX then .notFound
                    else
                      -- Voice crossing - tenor lower than upcoming bass
                      if index < bass.length - 1 then
                        match listAt bass ((index : Int) + 1) with
                        | none => .ub
                        | some bn =>
                          if t1 < bn then .notFound
                          else canCreateChoraleHelper majorKey chords notesInChords
                            (soprano ++ [s1]) (alto ++ [a1]) (tenor ++ [t1]) bass
                            (index + 1) LTCorrected
                      else canCreateChoraleHelper majorKey chords notesInChords
                        (soprano ++ [s1]) (alto ++ [a1]) (tenor ++ [t1]) bass
                        (index + 1) LTCorrected
                  | _, _, _ => .ub
            -- If the bass is moving up
            else if bi > bp then
              match listAt chords ((index : Int) - 1), listAt bass 0 with
              | some cPrev, some b0 =>
                match listAt chords index with
                | none => .ub
                | some ci =>
                  match listAt notesInChords ci with
                  | none => .ub
                  | some chordNotes =>
                    -- Push leading tone up if necessary
                    match
                      (if cPrev = 5 ∧ distanceToChord majorKey (sB - b0) = 7 then
                        some (sB + 1, true)
                      else if LTCorrected then
                        match nextLowerNote chordNotes (sB - 3) with
                        | none => none
                        | some s1 => some (s1, false)
                      else
                        match nextLowerNote chordNotes sB with
                        | none => none
                        | some s1 => some (s1, LTCorrected)) with
                    | none => .ub
                    | some (s1, LTC1) =>
                      match nextLowerNote chordNotes aB, nextLowerNote chordNotes tB with
                      | some a1, some t1 =>
                        -- Voice crossing - tenor lower than upcoming bass
                        if index < bass.length - 1 then
                          match listAt bass ((index : Int) + 1) with
                          | none => .ub
                          | some bn =>
                            if t1 < bn then .notFound
                            else canCreateChoraleHelper majorKey chords notesInChords
                              (soprano ++ [s1]) (alto ++ [a1]) (tenor ++ [t1]) bass
                              (index + 1) LTC1
                        else canCreateChoraleHelper majorKey chords notesInChords
                          (soprano ++ [s1]) (alto ++ [a1]) (tenor ++ [t1]) bass
                          (index + 1) LTC1
                      | _, _ => .ub
              | _, _ => .ub
            -- Neither branch pushes when the bass repeats; recurse unchanged
            else canCreateChoraleHelper majorKey chords notesInChords soprano alto tenor
              bass (index + 1) LTCorrected
          | _, _ => .ub
    | _, _, _ => .ub
termination_by chords.length - index
decreasing_by all_goals omega

/-- The tail of `canCreateChorale` after the first two starting voicings have failed:
the soprano-on-mediant attempt and its octave-lower variant (source lines 628-641).
In the C++ this code is reached by falling through the second attempt inside one
function body; it is factored out here so each attempt remains a direct match. -/
def canCreateChoraleTail (majorKey : Bool) (chords : List Int)
    (notesInChords : List (List Int)) (bass : List Int) (chord1 : List Int)
    (hTI2 : Int) (b0 : Int) : VoiceResult :=
  match listAt chord1 (hTI2 + 1) with
  | none => .ub
  | some xs =>
    if xs ≤ SOPRANO_MAX then
      -- Try starting soprano on mediant
      match listAt chord1 hTI2, listAt chord1 (hTI2 - 1) with
      | some a0c, some t0c =>
        canCreateChoraleHelper majorKey chords notesInChords [xs] [a0c] [t0c] bass
          1 false
      | _, _ => .ub
    else
      match listAt chord1 (hTI2 - 4) with
      | none => .ub
      | some x4b =>
        if x4b > b0 then
          -- Try starting soprano on mediant, one octave lower
          match listAt chord1 (hTI2 - 2), listAt chord1 hTI2,
            listAt chord1 (hTI2 - 1) with
          | some s0d, some a0d, some t0d =>
            canCreateChoraleHelper majorKey chords notesInChords [s0d] [a0d] [t0d]
              bass 1 false
          | _, _, _ => .ub
        else .notFound

/-- `canCreateChorale`: tries the fixed sequence of starting voicings for the tonic
chord and extends each with `canCreateChoraleHelper`.  The `soprano`/`alto`/`tenor`
accumulators the C++ caller passes in are always empty, so they are internal here; the
short-circuit evaluation order of the C++ conditions is preserved so that exactly the
reads the source performs are modelled (several are out of bounds for real catalogs,
e.g. `notesInChords[1][highestTonicIndex + 3]`). -/
def canCreateChorale (majorKey : Bool) (chords : List Int)
    (notesInChords : List (List Int)) (bass : List Int) : VoiceResult :=
  match listAt notesInChords 1 with
  | none => .ub
  | some chord1 =>
    let hTI0 : Int := ((chord1.length : Int) - 1) / 3 * 3
    -- if ((chord1[hTI-1] > ALTO_MAX || chord1[hTI-2] > TENOR_MAX) && chord1[hTI-3] > SOPRANO_MIN)
    match listAt chord1 (hTI0 - 1) with
    | none => .ub
    | some x1 =>
      match (if x1 > ALTO_MAX then some true
             else match listAt chord1 (hTI0 - 2) with
                  | none => none
                  | some x2 => some (x2 > TENOR_MAX)) with
      | none => .ub
      | some leftDisj =>
        match (if leftDisj then
                 match listAt chord1 (hTI0 - 3) with
                 | none => none
                 | some x3 => some (x3 > SOPRANO_MIN)
               else some false) with
        | none => .ub
        | some doShift =>
          let hTI : Int := if doShift then hTI0 - 3 else hTI0
          match listAt chord1 hTI, listAt chord1 (hTI - 1), listAt chord1 (hTI - 2) with
          | some s0, some a0, some t0 =>
            match canCreateChoraleHelper majorKey chords notesInChords [s0] [a0] [t0]
                bass 1 false with
            | .found s a t => .found s a t
            | .ub => .ub
            | .notFound =>
              -- Reset highest tonic
              match listAt chord1 (hTI + 3) with
              | none => .ub
              | some xr =>
                let hTI2 : Int := if xr ≤ SOPRANO_MAX then hTI + 3 else hTI
                -- Try giving mediant to alto and dominant to tenor
                match listAt chord1 (hTI2 - 4), listAt bass 0 with
                | some x4, some b0 =>
                  if x4 > b0 ∧ x4 > TENOR_MIN then
                    match listAt chord1 hTI2, listAt chord1 (hTI2 - 2) with
                    | some s0b, some a0b =>
                      match canCreateChoraleHelper majorKey chords notesInChords
                          [s0b] [a0b] [x4] bass 1 false with
                      | .found s a t => .found s a t
                      | .ub => .ub
                      | .notFound =>
                        canCreateChoraleTail majorKey chords notesInChords bass
                          chord1 hTI2 b0
                    | _, _ => .ub
                  else
                    canCreateChoraleTail majorKey chords notesInChords bass chord1
                      hTI2 b0
                | _, _ => .ub
          | _, _, _ => .ub

/-- All pitches of a voice line lie within the closed range of one voice. -/
def inVoiceRange (lo hi : Int) (l : List Int) : Prop := ∀ x ∈ l, lo ≤ x ∧ x ≤ hi

theorem listAt_some_bounds {α : Type} {l : List α} {i : Int} {v : α}
    (h : listAt l i = some v) : 0 ≤ i ∧ i.toNat < l.length := by
  unfold listAt at h
  split at h
  · exact absurd h (by simp)
  · exact ⟨by omega, (List.get?_eq_some.mp h).1⟩

theorem listAt_isSome {α : Type} {l : List α} {i : Int} (h0 : 0 ≤ i)
    (hlen : i < l.length) : ∃ v, listAt l i = some v := by
  unfold listAt
  rw [if_neg (by omega)]
  have hlt : i.toNat < l.length := by omega
  exact ⟨l.get ⟨i.toNat, hlt⟩, List.get?_eq_some.mpr ⟨hlt, rfl⟩⟩

theorem listAt_mem {α : Type} {l : List α} {i : Int} {v : α}
    (h : listAt l i = some v) : v ∈ l := by
  unfold listAt at h
  split at h
  · exact absurd h (by simp)
  · exact List.get?_mem h

theorem listAt_of_mem {α : Type} {l : List α} {v : α} (h : v ∈ l) :
    ∃ i : Int, 0 ≤ i ∧ listAt l i = some v := by
  obtain ⟨n, hn⟩ := List.mem_iff_get.mp h
  refine ⟨((n : Nat) : Int), by omega, ?_⟩
  unfold listAt
  rw [if_neg (show ¬ (((n : Nat) : Int) < 0) by omega)]
  have ht : (((n : Nat) : Int)).toNat = (n : Nat) := by omega
  rw [ht]
  exact List.get?_eq_some.mpr ⟨n.isLt, hn⟩

theorem listAt_mono {l : List Int} (hs : List.Chain' (· < ·) l) {i j : Int}
    {v w : Int} (hij : i ≤ j) (hi : listAt l i = some v) (hj : listAt l j = some w) :
    v ≤ w := by
  have hp := (List.chain'_iff_pairwise.mp hs)
  have hbi := listAt_some_bounds hi
  have hbj := listAt_some_bounds hj
  unfold listAt at hi hj
  rw [if_neg (by omega)] at hi
  rw [if_neg (by omega)] at hj
  obtain ⟨hi1, hi2⟩ := List.get?_eq_some.mp hi
  obtain ⟨hj1, hj2⟩ := List.get?_eq_some.mp hj
  rcases Nat.lt_or_ge i.toNat j.toNat with hlt | hge
  · have := List.pairwise_iff_get.mp hp ⟨i.toNat, hi1⟩ ⟨j.toNat, hj1⟩ hlt
    omega
  · have heq : i.toNat = j.toNat := by omega
    subst hi2 hj2
    simp [heq]

theorem nextLowerNoteGo_spec (chord : List Int) (note : Int) (lhs rhs : Int)
    (hs : List.Chain' (· < ·) chord) (hlhs : 0 ≤ lhs) (hrhs : rhs < chord.length)
    (hlow : ∀ (i v : Int), i < lhs → listAt chord i = some v → v < note)
    (hhigh : ∀ (i v : Int), rhs < i → listAt chord i = some v → note < v)
    (hex : ∃ (i v : Int), listAt chord i = some v ∧ v ≤ note) :
    ∃ v, nextLowerNoteGo chord note lhs rhs = some v ∧ v ∈ chord ∧ v ≤ note ∧
      ∀ w ∈ chord, w ≤ note → w ≤ v := by
  rw [nextLowerNoteGo]
  split
  case isTrue hle =>
    have havg1 : lhs ≤ (lhs + rhs) / 2 := by omega
    have havg2 : (lhs + rhs) / 2 ≤ rhs := by omega
    obtain ⟨v, hv⟩ := listAt_isSome (by omega) (by omega :
      (lhs + rhs) / 2 < (chord.length : Int))
    simp only [hv]
    split
    case isTrue hveq =>
      subst hveq
      exact ⟨v, rfl, listAt_mem hv, le_refl v, fun w _ hw => hw⟩
    case isFalse hvne =>
      split
      case isTrue hvlt =>
        refine nextLowerNoteGo_spec chord note ((lhs + rhs) / 2 + 1) rhs hs
          (by omega) hrhs ?_ hhigh hex
        intro i u hi hu
        have := listAt_mono hs (by omega : i ≤ (lhs + rhs) / 2) hu hv
        omega
      case isFalse hvgt =>
        refine nextLowerNoteGo_spec chord note lhs ((lhs + rhs) / 2 - 1) hs
          hlhs (by omega) hlow ?_ hex
        intro i u hi hu
        have := listAt_mono hs (by omega : (lhs + rhs) / 2 ≤ i) hv hu
        omega
  case isFalse hgt =>
    obtain ⟨i, u, hu, hule⟩ := hex
    have hib := listAt_some_bounds hu
    have hirhs : i ≤ rhs := by
      by_contra hc
      have := hhigh i u (by omega) hu
      omega
    obtain ⟨w, hw⟩ := listAt_isSome (by omega) (by omega : rhs < (chord.length : Int))
    refine ⟨w, hw, listAt_mem hw, by have := hlow rhs w (by omega) hw; omega, ?_⟩
    intro x hx hxle
    obtain ⟨j, hj0, hj⟩ := listAt_of_mem hx
    have hjrhs : j ≤ rhs := by
      by_contra hc
      have := hhigh j x (by omega) hj
      omega
    exact listAt_mono hs hjrhs hj hw
termination_by (rhs + 1 - lhs).toNat
decreasing_by all_goals omega

theorem nextHigherNoteGo_spec (chord : List Int) (note : Int) (lhs rhs : Int)
    (hs : List.Chain' (· < ·) chord) (hlhs : 0 ≤ lhs) (hrhs : rhs < chord.length)
    (hlow : ∀ (i v : Int), i < lhs → listAt chord i = some v → v < note)
    (hhigh : ∀ (i v : Int), rhs < i → listAt chord i = some v → note < v)
    (hex : ∃ (i v : Int), listAt chord i = some v ∧ note ≤ v) :
    ∃ v, nextHigherNoteGo chord note lhs rhs = some v ∧ v ∈ chord ∧ note ≤ v ∧
      ∀ w ∈ chord, note ≤ w → v ≤ w := by
  rw [nextHigherNoteGo]
  split
  case isTrue hle =>
    have havg1 : lhs ≤ (lhs + rhs + 1) / 2 := by omega
    have havg2 : (lhs + rhs + 1) / 2 ≤ rhs := by omega
    obtain ⟨v, hv⟩ := listAt_isSome (by omega) (by omega :
      (lhs + rhs + 1) / 2 < (chord.length : Int))
    simp only [hv]
    split
    case isTrue hveq =>
      subst hveq
      exact ⟨v, rfl, listAt_mem hv, le_refl v, fun w _ hw => hw⟩
    case isFalse hvne =>
      split
      case isTrue hvlt =>
        refine nextHigherNoteGo_spec chord note ((lhs + rhs + 1) / 2 + 1) rhs hs
          (by omega) hrhs ?_ hhigh hex
        intro i u hi hu
        have := listAt_mono hs (by omega : i ≤ (lhs + rhs + 1) / 2) hu hv
        omega
      case isFalse hvgt =>
        refine nextHigherNoteGo_spec chord note lhs ((lhs + rhs + 1) / 2 - 1) hs
          hlhs (by omega) hlow ?_ hex
        intro i u hi hu
        have := listAt_mono hs (by omega : (lhs + rhs + 1) / 2 ≤ i) hv hu
        omega
  case isFalse hgt =>
    obtain ⟨i, u, hu, hule⟩ := hex
    have hib := listAt_some_bounds hu
    have hilhs : lhs ≤ i := by
      by_contra hc
      have := hlow i u (by omega) hu
      omega
    obtain ⟨w, hw⟩ := listAt_isSome (by omega) (by omega : lhs < (chord.length : Int))
    refine ⟨w, hw, listAt_mem hw, by have := hhigh lhs w (by omega) hw; omega, ?_⟩
    intro x hx hxle
    obtain ⟨j, hj0, hj⟩ := listAt_of_mem hx
    have hjlhs : lhs ≤ j := by
      by_contra hc
      have := hlow j x (by omega) hj
      omega
    exact listAt_mono hs hjlhs hw hj
termination_by (rhs + 1 - lhs).toNat
decreasing_by all_goals omega

theorem nextLowerNoteGo_all_above (chord : List Int) (note : Int) (rhs : Int)
    (hrhs : rhs < chord.length)
    (hall : ∀ w ∈ chord, note < w) :
    nextLowerNoteGo chord note 0 rhs = none := by
  rw [nextLowerNoteGo]
  split
  case isTrue hle =>
    obtain ⟨v, hv⟩ := listAt_isSome (by omega) (by omega : rhs / 2 < (chord.length : Int))
    simp only [zero_add, hv]
    have hvmem := hall v (listAt_mem hv)
    rw [if_neg (by omega), if_neg (by omega)]
    exact nextLowerNoteGo_all_above chord note (rhs / 2 - 1) (by omega) hall
  case isFalse hgt =>
    unfold listAt
    rw [if_pos (by omega)]
termination_by (rhs + 1).toNat
decreasing_by omega

theorem nextHigherNoteGo_all_below (chord : List Int) (note : Int) (lhs : Int)
    (hlhs : 0 ≤ lhs)
    (hall : ∀ w ∈ chord, w < note) :
    nextHigherNoteGo chord note lhs ((chord.length : Int) - 1) = none := by
  rw [nextHigherNoteGo]
  split
  case isTrue hle =>
    obtain ⟨v, hv⟩ := listAt_isSome (by omega)
      (by omega : (lhs + ((chord.length : Int) - 1) + 1) / 2 < (chord.length : Int))
    simp only [hv]
    have hvmem := hall v (listAt_mem hv)
    rw [if_neg (by omega), if_pos (by omega)]
    exact nextHigherNoteGo_all_below chord note
      ((lhs + ((chord.length : Int) - 1) + 1) / 2 + 1) (by omega) hall
  case isFalse hgt =>
    unfold listAt
    rw [if_neg (by omega)]
    exact List.get?_eq_none.mpr (by omega)
termination_by ((chord.length : Int) - lhs).toNat
decreasing_by omega

theorem listAt_zero_of_head {l : List Int} {v : Int} (h : l.head? = some v) :
    listAt l 0 = some v := by
  unfold listAt
  rw [if_neg (by omega)]
  simpa [← List.get?_zero] using h

theorem listAt_last_of_getLast {l : List Int} {v : Int} (h : l.getLast? = some v) :
    listAt l ((l.length : Int) - 1) = some v := by
  have hne : l ≠ [] := by
    intro he
    subst he
    simp at h
  have hlen : 1 ≤ l.length := by
    cases l
    · exact absurd rfl hne
    · simp
  unfold listAt
  rw [if_neg (by omega)]
  have : ((l.length : Int) - 1).toNat = l.length - 1 := by omega
  rw [this, ← List.getLast?_eq_get?]
  exact h

theorem head_is_min {l : List Int} {v : Int} (hs : List.Chain' (· < ·) l)
    (h : l.head? = some v) : ∀ w ∈ l, v ≤ w := by
  intro w hw
  obtain ⟨j, hj0, hj⟩ := listAt_of_mem hw
  exact listAt_mono hs hj0 (listAt_zero_of_head h) hj

theorem getLast_is_max {l : List Int} {v : Int} (hs : List.Chain' (· < ·) l)
    (h : l.getLast? = some v) : ∀ w ∈ l, w ≤ v := by
  intro w hw
  obtain ⟨j, hj0, hj⟩ := listAt_of_mem hw
  have hb := listAt_some_bounds hj
  exact listAt_mono hs (by omega) hj (listAt_last_of_getLast h)

/-- C5: for every strictly ascending sequence and target within [seq.first, seq.last],
nextLowerNote returns the maximal element at most the target, nextHigherNote returns
the minimal element at least the target, and both return the target itself when it is
an element of the sequence. -/
theorem c5_nearest_tone_search_correct (seq : List Int) (t fst lst : Int)
    (hs : List.Chain' (· < ·) seq)
    (hfst : seq.head? = some fst) (hlst : seq.getLast? = some lst)
    (h1 : fst ≤ t) (h2 : t ≤ lst) :
    (∃ v, nextLowerNote seq t = some v ∧ v ∈ seq ∧ v ≤ t ∧ ∀ w ∈ seq, w ≤ t → w ≤ v) ∧
    (∃ v, nextHigherNote seq t = some v ∧ v ∈ seq ∧ t ≤ v ∧ ∀ w ∈ seq, t ≤ w → v ≤ w) ∧
    (t ∈ seq → nextLowerNote seq t = some t ∧ nextHigherNote seq t = some t) := by
  have h0 := listAt_zero_of_head hfst
  have hL := listAt_last_of_getLast hlst
  have hlen : 1 ≤ seq.length := (listAt_some_bounds h0).2
  have hlow0 : ∀ (i v : Int), i < 0 → listAt seq i = some v → v < t := by
    intro i v hi hv
    have := listAt_some_bounds hv
    omega
  have hhighL : ∀ (i v : Int), (seq.length : Int) - 1 < i → listAt seq i = some v →
      t < v := by
    intro i v hi hv
    have := listAt_some_bounds hv
    omega
  have hlo := nextLowerNoteGo_spec seq t 0 ((seq.length : Int) - 1) hs (by omega)
    (by omega) hlow0 hhighL ⟨0, fst, h0, h1⟩
  have hhi := nextHigherNoteGo_spec seq t 0 ((seq.length : Int) - 1) hs (by omega)
    (by omega) hlow0 hhighL ⟨(seq.length : Int) - 1, lst, hL, h2⟩
  refine ⟨hlo, hhi, ?_⟩
  intro htmem
  obtain ⟨v, hveq, _, hvle, hvmax⟩ := hlo
  obtain ⟨u, hueq, _, hule, humin⟩ := hhi
  constructor
  · unfold nextLowerNote
    rw [hveq]
    have := hvmax t htmem (le_refl t)
    have : v = t := by omega
    rw [this]
  · unfold nextHigherNote
    rw [hueq]
    have := humin t htmem (le_refl t)
    have : u = t := by omega
    rw [this]

/-- C9 (amended): an out-of-range target is NOT surfaced as a distinct internal
error.  With a target below seq.first, nextLowerNote silently performs an
out-of-bounds access (modelled as none) while nextHigherNote silently returns
seq.first; with a target above seq.last, nextHigherNote performs the out-of-bounds
access and nextLowerNote silently returns seq.last. -/
theorem c9_out_of_range_targets (seq : List Int) (t fst lst : Int)
    (hs : List.Chain' (· < ·) seq)
    (hfst : seq.head? = some fst) (hlst : seq.getLast? = some lst) :
    (t < fst → nextLowerNote seq t = none) ∧
    (lst < t → nextLowerNote seq t = some lst) ∧
    (lst < t → nextHigherNote seq t = none) ∧
    (t < fst → nextHigherNote seq t = some fst) := by
  have h0 := listAt_zero_of_head hfst
  have hL := listAt_last_of_getLast hlst
  have hlen : 1 ≤ seq.length := (listAt_some_bounds h0).2
  have hmin := head_is_min hs hfst
  have hmax := getLast_is_max hs hlst
  have hlow0 : ∀ (i v : Int), i < 0 → listAt seq i = some v → v < t := by
    intro i v hi hv
    have := listAt_some_bounds hv
    omega
  have hhighL : ∀ (i v : Int), (seq.length : Int) - 1 < i → listAt seq i = some v →
      t < v := by
    intro i v hi hv
    have := listAt_some_bounds hv
    omega
  refine ⟨?_, ?_, ?_, ?_⟩
  · intro hlt
    exact nextLowerNoteGo_all_above seq t ((seq.length : Int) - 1) (by omega)
      (fun w hw => by have := hmin w hw; omega)
  · intro hlt
    obtain ⟨v, hveq, hvmem, hvle, hvmax⟩ := nextLowerNoteGo_spec seq t 0
      ((seq.length : Int) - 1) hs (by omega) (by omega) hlow0 hhighL
      ⟨(seq.length : Int) - 1, lst, hL, by omega⟩
    unfold nextLowerNote
    rw [hveq]
    have h1 := hvmax lst (listAt_mem hL) (by omega)
    have h2 := hmax v hvmem
    have : v = lst := by omega
    rw [this]
  · intro hlt
    exact nextHigherNoteGo_all_below seq t 0 (by omega)
      (fun w hw => by have := hmax w hw; omega)
  · intro hlt
    obtain ⟨v, hveq, hvmem, hvle, hvmin⟩ := nextHigherNoteGo_spec seq t 0
      ((seq.length : Int) - 1) hs (by omega) (by omega) hlow0 hhighL
      ⟨0, fst, h0, by omega⟩
    unfold nextHigherNote
    rw [hveq]
    have h1 := hvmin fst (listAt_mem h0) (by omega)
    have h2 := hmin v hvmem
    have : v = fst := by omega
    rw [this]

theorem establishLoopMajor_eq (s : Int) :
    establishLoopMajor s (List.replicate 9 []) 1 0 =
      [[], fillMajorChordVector [] s, fillMinorChordVector [] (s + 2),
       fillMinorChordVector [] (s + 4), fillMajorChordVector [] (s + 5),
       fillMajorChordVector [] (s + 7), fillMinorChordVector [] (s + 9),
       fillDimChordVector [] (s + 11), []] := by
  rw [establishLoopMajor]
  norm_num [List.replicate]
  rw [establishLoopMajor]
  norm_num
  rw [establishLoopMajor]
  norm_num
  rw [establishLoopMajor]
  norm_num
  rw [establishLoopMajor]
  norm_num
  rw [establishLoopMajor]
  norm_num
  rw [establishLoopMajor]
  norm_num
  rw [establishLoopMajor]
  norm_num

theorem establishLoopMinor_eq (s : Int) :
    establishLoopMinor s (List.replicate 9 []) 1 0 =
      [[], fillMinorChordVector [] s, fillDimChordVector [] (s + 2),
       fillMajorChordVector [] (s + 3), fillMinorChordVector [] (s + 5),
       fillMajorChordVector [] (s + 7), fillMajorChordVector [] (s + 8),
       fillDimChordVector [] (s + 11), fillMajorChordVector [] (s + 11)] := by
  rw [establishLoopMinor]
  norm_num [List.replicate]
  rw [establishLoopMinor]
  norm_num
  rw [establishLoopMinor]
  norm_num
  rw [establishLoopMinor]
  norm_num
  rw [establishLoopMinor]
  norm_num
  rw [establishLoopMinor]
  norm_num
  rw [establishLoopMinor]
  norm_num
  rw [establishLoopMinor]
  norm_num
  rw [establishLoopMinor]
  norm_num

theorem chain_append_triple {v : List Int} {a b c : Int}
    (hv : List.Chain' (· < ·) v) (hlt : ∀ x ∈ v, x < a) (hab : a < b) (hbc : b < c) :
    List.Chain' (· < ·) (v ++ [a, b, c]) := by
  rw [List.chain'_append]
  refine ⟨hv, by simp [List.chain'_cons]; omega, ?_⟩
  intro x hx y hy
  simp at hy
  subst hy
  exact hlt x (List.mem_of_mem_getLast? hx)

theorem chain_append_pair {v : List Int} {a b : Int}
    (hv : List.Chain' (· < ·) v) (hlt : ∀ x ∈ v, x < a) (hab : a < b) :
    List.Chain' (· < ·) (v ++ [a, b]) := by
  rw [List.chain'_append]
  refine ⟨hv, by simp [List.chain'_cons]; omega, ?_⟩
  intro x hx y hy
  simp at hy
  subst hy
  exact hlt x (List.mem_of_mem_getLast? hx)

theorem chain_append_single {v : List Int} {a : Int}
    (hv : List.Chain' (· < ·) v) (hlt : ∀ x ∈ v, x < a) :
    List.Chain' (· < ·) (v ++ [a]) := by
  rw [List.chain'_append]
  refine ⟨hv, by simp, ?_⟩
  intro x hx y hy
  simp at hy
  subst hy
  exact hlt x (List.mem_of_mem_getLast? hx)

theorem fillMajorChordVector_chain (v : List Int) (index : Int)
    (hv : List.Chain' (· < ·) v) (hlt : ∀ x ∈ v, x < index) :
    List.Chain' (· < ·) (fillMajorChordVector v index) := by
  rw [fillMajorChordVector]
  split
  case isTrue h1 =>
    split
    case isTrue h2 =>
      split
      case isTrue h3 =>
        refine fillMajorChordVector_chain (v ++ [index, index + 4, index + 7])
          (index + 12) (chain_append_triple hv hlt (by omega) (by omega)) ?_
        intro x hx
        simp at hx
        rcases hx with hx | hx | hx | hx
        · have := hlt x hx
          omega
        all_goals omega
      case isFalse h3 =>
        exact chain_append_pair hv hlt (by omega)
    case isFalse h2 =>
      exact chain_append_single hv hlt
  case isFalse h1 =>
    exact hv
termination_by (SOPRANO_MAX + 1 - index).toNat
decreasing_by simp only [SOPRANO_MAX] at *; omega

theorem fillMinorChordVector_chain (v : List Int) (index : Int)
    (hv : List.Chain' (· < ·) v) (hlt : ∀ x ∈ v, x < index) :
    List.Chain' (· < ·) (fillMinorChordVector v index) := by
  rw [fillMinorChordVector]
  split
  case isTrue h1 =>
    split
    case isTrue h2 =>
      split
      case isTrue h3 =>
        refine fillMinorChordVector_chain (v ++ [index, index + 3, index + 7])
          (index + 12) (chain_append_triple hv hlt (by omega) (by omega)) ?_
        intro x hx
        simp at hx
        rcases hx with hx | hx | hx | hx
        · have := hlt x hx
          omega
        all_goals omega
      case isFalse h3 =>
        exact chain_append_pair hv hlt (by omega)
    case isFalse h2 =>
      exact chain_append_single hv hlt
  case isFalse h1 =>
    exact hv
termination_by (SOPRANO_MAX + 1 - index).toNat
decreasing_by simp only [SOPRANO_MAX] at *; omega

theorem fillDimChordVector_chain (v : List Int) (index : Int)
    (hv : List.Chain' (· < ·) v) (hlt : ∀ x ∈ v, x < index) :
    List.Chain' (· < ·) (fillDimChordVector v index) := by
  rw [fillDimChordVector]
  split
  case isTrue h1 =>
    split
    case isTrue h2 =>
      split
      case isTrue h3 =>
        refine fillDimChordVector_chain (v ++ [index, index + 3, index + 6])
          (index + 12) (chain_append_triple hv hlt (by omega) (by omega)) ?_
        intro x hx
        simp at hx
        rcases hx with hx | hx | hx | hx
        · have := hlt x hx
          omega
        all_goals omega
      case isFalse h3 =>
        exact chain_append_pair hv hlt (by omega)
    case isFalse h2 =>
      exact chain_append_single hv hlt
  case isFalse h1 =>
    exact hv
termination_by (SOPRANO_MAX + 1 - index).toNat
decreasing_by simp only [SOPRANO_MAX] at *; omega

theorem chain_lt_nodup {l : List Int} (h : List.Chain' (· < ·) l) : l.Nodup :=
  (List.chain'_iff_pairwise.mp h).imp (fun hlt => ne_of_lt hlt)

/-- C6: every entry of the chord-tone catalog built by establishNotesInChords is a
strictly ascending pitch sequence with no duplicate values, for both key modes and
any tonic pitch. -/
theorem c6_catalog_entries_strictly_ascending (startNote : Int) (majorKey : Bool) :
    List.Forall (fun c => List.Chain' (· < ·) c ∧ c.Nodup)
      (establishNotesInChords startNote majorKey) := by
  have hM : ∀ r : Int, List.Chain' (· < ·) (fillMajorChordVector [] r) ∧
      (fillMajorChordVector [] r).Nodup := fun r =>
    have h := fillMajorChordVector_chain [] r List.chain'_nil (by simp)
    ⟨h, chain_lt_nodup h⟩
  have hm : ∀ r : Int, List.Chain' (· < ·) (fillMinorChordVector [] r) ∧
      (fillMinorChordVector [] r).Nodup := fun r =>
    have h := fillMinorChordVector_chain [] r List.chain'_nil (by simp)
    ⟨h, chain_lt_nodup h⟩
  have hd : ∀ r : Int, List.Chain' (· < ·) (fillDimChordVector [] r) ∧
      (fillDimChordVector [] r).Nodup := fun r =>
    have h := fillDimChordVector_chain [] r List.chain'_nil (by simp)
    ⟨h, chain_lt_nodup h⟩
  have hnil : List.Chain' (· < ·) ([] : List Int) ∧ ([] : List Int).Nodup :=
    ⟨List.chain'_nil, List.nodup_nil⟩
  unfold establishNotesInChords
  cases majorKey
  · simp only [Bool.false_eq_true, if_false, establishLoopMinor_eq]
    simp only [List.forall_cons]
    exact ⟨hnil, hm _, hd _, hM _, hm _, hM _, hM _, hd _, hM _, True.intro⟩
  · simp only [if_true, establishLoopMajor_eq]
    simp only [List.forall_cons]
    exact ⟨hnil, hM _, hm _, hm _, hM _, hM _, hm _, hd _, hnil, True.intro⟩


theorem inVoiceRange_concat_dropLast {lo hi : Int} {l : List Int} {b : Int} (v : Int)
    (h : inVoiceRange lo hi l.dropLast) (hb : l.getLast? = some b)
    (hblo : lo ≤ b) (hbhi : b ≤ hi) : inVoiceRange lo hi ((l ++ [v]).dropLast) := by
  rw [List.dropLast_concat]
  intro x hx
  have hne : l ≠ [] := by
    rintro rfl
    simp at hb
  rw [← List.dropLast_append_getLast hne] at hx
  rcases List.mem_append.mp hx with hx | hx
  · exact h x hx
  · simp at hx
    subst hx
    have hbe : l.getLast hne = b := by
      have := List.getLast?_eq_getLast l hne
      rw [this, Option.some_inj] at hb
      exact hb
    rw [hbe]
    exact ⟨hblo, hbhi⟩

theorem canCreateChoraleHelper_dropLast_in_range (majorKey : Bool) (chords : List Int)
    (notesInChords : List (List Int)) (bass : List Int) :
    ∀ (k : Nat) (soprano alto tenor : List Int) (index : Nat) (LTCorrected : Bool)
      (s a t : List Int), chords.length - index ≤ k →
      canCreateChoraleHelper majorKey chords notesInChords soprano alto tenor
        bass index LTCorrected = VoiceResult.found s a t →
      inVoiceRange SOPRANO_MIN SOPRANO_MAX soprano.dropLast →
      inVoiceRange ALTO_MIN ALTO_MAX alto.dropLast →
      inVoiceRange TENOR_MIN TENOR_MAX tenor.dropLast →
      inVoiceRange SOPRANO_MIN SOPRANO_MAX s.dropLast ∧
      inVoiceRange ALTO_MIN ALTO_MAX a.dropLast ∧
      inVoiceRange TENOR_MIN TENOR_MAX t.dropLast := by
  intro k
  induction k with
  | zero =>
    intro soprano alto tenor index LTCorrected s a t hk hres hs ha ht
    rw [canCreateChoraleHelper] at hres
    rw [if_pos (by omega)] at hres
    injection hres with h1 h2 h3
    subst h1
    subst h2
    subst h3
    exact ⟨hs, ha, ht⟩
  | succ k ih =>
    intro soprano alto tenor index LTCorrected s a t hk hres hs ha ht
    rw [canCreateChoraleHelper] at hres
    split at hres
    case isTrue hbase =>
      injection hres with h1 h2 h3
      subst h1
      subst h2
      subst h3
      exact ⟨hs, ha, ht⟩
    case isFalse hrec =>
      split at hres
      case h_2 => exact VoiceResult.noConfusion hres
      case h_1 sB aB tB hsB haB htB =>
        split at hres
        case isTrue => exact VoiceResult.noConfusion hres
        case isFalse hrange =>
          push_neg at hrange
          obtain ⟨hr1, hr2, hr3, hr4, hr5, hr6⟩ := hrange
          have hs1 : ∀ v : Int, inVoiceRange SOPRANO_MIN SOPRANO_MAX
              ((soprano ++ [v]).dropLast) := fun v =>
            inVoiceRange_concat_dropLast v hs hsB hr4 hr1
          have ha1 : ∀ v : Int, inVoiceRange ALTO_MIN ALTO_MAX
              ((alto ++ [v]).dropLast) := fun v =>
            inVoiceRange_concat_dropLast v ha haB hr5 hr2
          have ht1 : ∀ v : Int, inVoiceRange TENOR_MIN TENOR_MAX
              ((tenor ++ [v]).dropLast) := fun v =>
            inVoiceRange_concat_dropLast v ht htB hr6 hr3
          split at hres
          case isTrue => exact VoiceResult.noConfusion hres
          case isFalse h0 =>
            split at hres
            case h_2 => exact VoiceResult.noConfusion hres
            case h_1 bi bp hbi hbp =>
              split at hres
              case isTrue hup =>
                split at hres
                case h_1 => exact VoiceResult.noConfusion hres
                case h_2 ci hci =>
                  split at hres
                  case h_1 => exact VoiceResult.noConfusion hres
                  case h_2 chordNotes hcn =>
                    split at hres
                    all_goals split at hres
                    all_goals try simp only [] at hres
                    all_goals split at hres
                    all_goals try exact VoiceResult.noConfusion hres
                    all_goals split at hres
                    all_goals try exact VoiceResult.noConfusion hres
                    all_goals try split at hres
                    all_goals try exact VoiceResult.noConfusion hres
                    all_goals try split at hres
                    all_goals try exact VoiceResult.noConfusion hres
                    all_goals
                      exact ih _ _ _ (index + 1) _ s a t (by omega) hres
                        (hs1 _) (ha1 _) (ht1 _)
              case isFalse hnup =>
                split at hres
                case isTrue hdown =>
                  split at hres
                  case h_2 => exact VoiceResult.noConfusion hres
                  case h_1 cPrev b0 hcPrev hb0 =>
                    split at hres
                    case h_1 => exact VoiceResult.noConfusion hres
                    case h_2 ci hci =>
                      split at hres
                      case h_1 => exact VoiceResult.noConfusion hres
                      case h_2 chordNotes hcn =>
                        repeat' (first
                          | exact VoiceResult.noConfusion hres
                          | split at hres
                          | simp only [] at hres)
                        all_goals
                          exact ih _ _ _ (index + 1) _ s a t (by omega) hres
                            (hs1 _) (ha1 _) (ht1 _)
                case isFalse heq =>
                  exact ih soprano alto tenor (index + 1) _ s a t (by omega) hres
                    hs ha ht

/-- Specialisation of the range invariant to the singleton starting voicings that
canCreateChorale passes to the helper. -/
theorem canCreateChoraleHelper_singleton_range (majorKey : Bool) (chords : List Int)
    (notesInChords : List (List Int)) (bass : List Int) (x y z : Int) (s a t : List Int)
    (hres : canCreateChoraleHelper majorKey chords notesInChords [x] [y] [z] bass 1
      false = VoiceResult.found s a t) :
    inVoiceRange SOPRANO_MIN SOPRANO_MAX s.dropLast ∧
    inVoiceRange ALTO_MIN ALTO_MAX a.dropLast ∧
    inVoiceRange TENOR_MIN TENOR_MAX t.dropLast :=
  canCreateChoraleHelper_dropLast_in_range majorKey chords notesInChords bass
    chords.length [x] [y] [z] 1 false s a t (by omega) hres
    (by simp [inVoiceRange]) (by simp [inVoiceRange]) (by simp [inVoiceRange])

theorem canCreateChoraleTail_range (majorKey : Bool) (chords : List Int)
    (notesInChords : List (List Int)) (bass : List Int) (chord1 : List Int)
    (hTI2 : Int) (b0 : Int) (s a t : List Int)
    (hres : canCreateChoraleTail majorKey chords notesInChords bass chord1 hTI2 b0 =
      VoiceResult.found s a t) :
    inVoiceRange SOPRANO_MIN SOPRANO_MAX s.dropLast ∧
    inVoiceRange ALTO_MIN ALTO_MAX a.dropLast ∧
    inVoiceRange TENOR_MIN TENOR_MAX t.dropLast := by
  rw [canCreateChoraleTail] at hres
  repeat' (first
    | exact VoiceResult.noConfusion hres
    | split at hres
    | simp only [] at hres)
  all_goals
    exact canCreateChoraleHelper_singleton_range _ _ _ _ _ _ _ _ _ _ hres

/-- C3 (amended): whenever the voice-leading solver succeeds, every pitch of the
returned soprano, alto and tenor lines except possibly those at the final slot lies
within that voice's range; the pitches pushed at the final slot are exempt because
they are never range-checked (see the counterexample). -/
theorem canCreateChorale_dropLast_in_range (majorKey : Bool) (chords : List Int)
    (notesInChords : List (List Int)) (bass : List Int) (s a t : List Int)
    (hres : canCreateChorale majorKey chords notesInChords bass =
      VoiceResult.found s a t) :
    inVoiceRange SOPRANO_MIN SOPRANO_MAX s.dropLast ∧
    inVoiceRange ALTO_MIN ALTO_MAX a.dropLast ∧
    inVoiceRange TENOR_MIN TENOR_MAX t.dropLast := by
  rw [canCreateChorale] at hres
  repeat' (first
    | exact VoiceResult.noConfusion hres
    | split at hres
    | simp only [] at hres)
  all_goals try
    (injection hres with e1 e2 e3
     subst e1
     subst e2
     subst e3
     clear hres)
  all_goals try
    (injection hres with e1 e2 e3
     subst e1
     subst e2
     subst e3)
  all_goals first
    | exact canCreateChoraleHelper_singleton_range _ _ _ _ _ _ _ _ _ _ hres
    | exact canCreateChoraleTail_range _ _ _ _ _ _ _ _ _ _ hres
    | exact canCreateChoraleHelper_singleton_range _ _ _ _ _ _ _ _ _ _ (by assumption)





/-- C7 (amended): at any voice-leading step with index at least 1 where the previous
chord is degree 5, the bass rises from the previous position by an interval other
than a fourth (5), and the soprano's previous pitch is the leading tone (its distance
from the tonic maps to degree 7), the soprano's new pitch is exactly the previous
pitch plus 1 and the leading-tone-corrected flag is set for the following step,
whatever the incoming flag was.  (When the bass rises by exactly 5 the
closest-upward branch runs instead and the flag is not set - see the
counterexample.) -/
theorem c7_step (majorKey : Bool) (chords : List Int) (notesInChords : List (List Int))
    (soprano alto tenor bass : List Int) (index : Nat) (flag : Bool)
    (sB aB tB bi bp b0 ci a1 t1 : Int) (chordNotes : List Int)
    (h1 : ¬ index ≥ chords.length)
    (h2 : soprano.getLast? = some sB)
    (h3 : alto.getLast? = some aB)
    (h4 : tenor.getLast? = some tB)
    (h5 : ¬(sB > SOPRANO_MAX ∨ aB > ALTO_MAX ∨ tB > TENOR_MAX ∨ sB < SOPRANO_MIN ∨
      aB < ALTO_MIN ∨ tB < TENOR_MIN))
    (h6 : ¬ index = 0)
    (h7 : listAt bass index = some bi)
    (h8 : listAt bass ((index : Int) - 1) = some bp)
    (h9 : bp < bi)
    (h10 : bi - bp ≠ 5)
    (h11 : listAt chords ((index : Int) - 1) = some 5)
    (h12 : listAt bass 0 = some b0)
    (h13 : distanceToChord majorKey (sB - b0) = 7)
    (h14 : listAt chords index = some ci)
    (h15 : listAt notesInChords ci = some chordNotes)
    (h16 : nextLowerNote chordNotes aB = some a1)
    (h17 : nextLowerNote chordNotes tB = some t1) :
    canCreateChoraleHelper majorKey chords notesInChords soprano alto tenor bass index
      flag =
    (if index < bass.length - 1 then
      match listAt bass ((index : Int) + 1) with
      | none => VoiceResult.ub
      | some bn =>
        if t1 < bn then VoiceResult.notFound
        else canCreateChoraleHelper majorKey chords notesInChords (soprano ++ [sB + 1])
          (alto ++ [a1]) (tenor ++ [t1]) bass (index + 1) true
     else canCreateChoraleHelper majorKey chords notesInChords (soprano ++ [sB + 1])
       (alto ++ [a1]) (tenor ++ [t1]) bass (index + 1) true) := by
  rw [canCreateChoraleHelper]
  rw [if_neg h1]
  simp only [h2, h3, h4]
  rw [if_neg h5]
  rw [if_neg h6]
  simp only [h7, h8]
  rw [if_neg (by omega : ¬(bi < bp ∨ bi - bp = 5))]
  rw [if_pos (by omega : bi > bp)]
  simp only [h11, h12]
  simp only [h14, h15]
  rw [if_pos (show True ∧ distanceToChord majorKey (sB - b0) = 7 from ⟨trivial, h13⟩)]
  simp only [h16, h17]

/-- C10: the leading-tone-corrected flag semantics.  (1) If the flag is set and the
step is closest-upward (bass falls or rises by exactly 5), the soprano moves to the
nearest catalog pitch at or above its previous pitch minus 3 and the flag remains set.
(2) The flag is cleared exactly by a closest-downward (bass-rises) step that consumes
it, which evaluates the soprano against its previous pitch minus 3.  (3) A
leading-tone retrigger on a bass-rises step leaves the flag set.  (4) A repeated bass
pitch leaves the flag (and the voices) untouched. -/
theorem c10_flag_steps (majorKey : Bool) (chords : List Int)
    (notesInChords : List (List Int)) (soprano alto tenor bass : List Int) (index : Nat)
    (sB aB tB bi bp b0 cPrev ci s1 a1 t1 : Int) (chordNotes : List Int)
    (h1 : ¬ index ≥ chords.length)
    (h2 : soprano.getLast? = some sB)
    (h3 : alto.getLast? = some aB)
    (h4 : tenor.getLast? = some tB)
    (h5 : ¬(sB > SOPRANO_MAX ∨ aB > ALTO_MAX ∨ tB > TENOR_MAX ∨ sB < SOPRANO_MIN ∨
      aB < ALTO_MIN ∨ tB < TENOR_MIN))
    (h6 : ¬ index = 0)
    (h7 : listAt bass index = some bi)
    (h8 : listAt bass ((index : Int) - 1) = some bp) :
    ((bi < bp ∨ bi - bp = 5) → listAt chords index = some ci →
      listAt notesInChords ci = some chordNotes →
      nextHigherNote chordNotes (sB - 3) = some s1 →
      nextHigherNote chordNotes aB = some a1 →
      nextHigherNote chordNotes tB = some t1 →
      canCreateChoraleHelper majorKey chords notesInChords soprano alto tenor bass
        index true =
      (if s1 > SOPRANO_MAX ∨ a1 > ALTO_MAX ∨ t1 > TENOR_MAX then VoiceResult.notFound
       else if index < bass.length - 1 then
         match listAt bass ((index : Int) + 1) with
         | none => VoiceResult.ub
         | some bn =>
           if t1 < bn then VoiceResult.notFound
           else canCreateChoraleHelper majorKey chords notesInChords (soprano ++ [s1])
             (alto ++ [a1]) (tenor ++ [t1]) bass (index + 1) true
       else canCreateChoraleHelper majorKey chords notesInChords (soprano ++ [s1])
         (alto ++ [a1]) (tenor ++ [t1]) bass (index + 1) true)) ∧
    (bp < bi → bi - bp ≠ 5 → listAt chords ((index : Int) - 1) = some cPrev →
      listAt bass 0 = some b0 →
      ¬(cPrev = 5 ∧ distanceToChord majorKey (sB - b0) = 7) →
      listAt chords index = some ci → listAt notesInChords ci = some chordNotes →
      nextLowerNote chordNotes (sB - 3) = some s1 →
      nextLowerNote chordNotes aB = some a1 →
      nextLowerNote chordNotes tB = some t1 →
      canCreateChoraleHelper majorKey chords notesInChords soprano alto tenor bass
        index true =
      (if index < bass.length - 1 then
         match listAt bass ((index : Int) + 1) with
         | none => VoiceResult.ub
         | some bn =>
           if t1 < bn then VoiceResult.notFound
           else canCreateChoraleHelper majorKey chords notesInChords (soprano ++ [s1])
             (alto ++ [a1]) (tenor ++ [t1]) bass (index + 1) false
       else canCreateChoraleHelper majorKey chords notesInChords (soprano ++ [s1])
         (alto ++ [a1]) (tenor ++ [t1]) bass (index + 1) false)) ∧
    (bp < bi → bi - bp ≠ 5 → listAt chords ((index : Int) - 1) = some 5 →
      listAt bass 0 = some b0 → distanceToChord majorKey (sB - b0) = 7 →
      listAt chords index = some ci → listAt notesInChords ci = some chordNotes →
      nextLowerNote chordNotes aB = some a1 →
      nextLowerNote chordNotes tB = some t1 →
      canCreateChoraleHelper majorKey chords notesInChords soprano alto tenor bass
        index true =
      (if index < bass.length - 1 then
         match listAt bass ((index : Int) + 1) with
         | none => VoiceResult.ub
         | some bn =>
           if t1 < bn then VoiceResult.notFound
           else canCreateChoraleHelper majorKey chords notesInChords
             (soprano ++ [sB + 1]) (alto ++ [a1]) (tenor ++ [t1]) bass (index + 1) true
       else canCreateChoraleHelper majorKey chords notesInChords (soprano ++ [sB + 1])
         (alto ++ [a1]) (tenor ++ [t1]) bass (index + 1) true)) ∧
    (bi = bp →
      canCreateChoraleHelper majorKey chords notesInChords soprano alto tenor bass
        index true =
      canCreateChoraleHelper majorKey chords notesInChords soprano alto tenor bass
        (index + 1) true) := by
  refine ⟨?_, ?_, ?_, ?_⟩
  · intro hup h14 h15 hs1 ha1 ht1
    rw [canCreateChoraleHelper]
    rw [if_neg h1]
    simp only [h2, h3, h4]
    rw [if_neg h5]
    rw [if_neg h6]
    simp only [h7, h8]
    rw [if_pos hup]
    simp only [h14, h15]
    simp only [if_true]
    simp only [hs1, ha1, ht1]
  · intro h9 h10 h11 h12 hnr h14 h15 hs1 ha1 ht1
    rw [canCreateChoraleHelper]
    rw [if_neg h1]
    simp only [h2, h3, h4]
    rw [if_neg h5]
    rw [if_neg h6]
    simp only [h7, h8]
    rw [if_neg (by omega : ¬(bi < bp ∨ bi - bp = 5))]
    rw [if_pos (by omega : bi > bp)]
    simp only [h11, h12, h14, h15]
    rw [if_neg hnr]
    simp only [hs1]
    simp only [if_true]
    simp only [ha1, ht1]
  · intro h9 h10 h11 h12 h13 h14 h15 ha1 ht1
    rw [canCreateChoraleHelper]
    rw [if_neg h1]
    simp only [h2, h3, h4]
    rw [if_neg h5]
    rw [if_neg h6]
    simp only [h7, h8]
    rw [if_neg (by omega : ¬(bi < bp ∨ bi - bp = 5))]
    rw [if_pos (by omega : bi > bp)]
    simp only [h11, h12, h14, h15]
    rw [if_pos (show True ∧ distanceToChord majorKey (sB - b0) = 7 from ⟨trivial, h13⟩)]
    simp only [ha1, ht1]
  · intro heq
    rw [canCreateChoraleHelper]
    rw [if_neg h1]
    simp only [h2, h3, h4]
    rw [if_neg h5]
    rw [if_neg h6]
    simp only [h7, h8]
    rw [if_neg (by omega : ¬(bi < bp ∨ bi - bp = 5))]
    rw [if_neg (by omega : ¬ bi > bp)]

/-- C1: for a valid bass line the progression solver must return either false or a
sequence starting on degree 1, with degree 5 at length-2, degree 1 last, and every
adjacent pair allowed by the relation table.  The code violates this: undoing a failed
candidate with chords.remove(index) removes the parent slot instead of the pushed one,
so after backtracking on the valid bass line [0,4,7,0] the solver returns true with the
corrupted sequence [3,1,5,1], whose first chord is 3 and whose first transition 3 to 1
is not in the relation table entry of chord 3. -/
theorem c1_backtracking_corrupts_progression :
    createChordProgression true [0, 4, 7, 0] [] (setUpChordRels true) =
      some (true, [3, 1, 5, 1]) ∧
    ([3, 1, 5, 1] : List Int).head? = some 3 ∧
    (1 : Int) ∉ (setUpChordRels true).getD 3 [] := by
  refine ⟨?_, by decide, by decide⟩
  simp [createChordProgression, createChordProgressionRec, setUpChordRels,
    distanceToChord, normalizeDistance, listAt]

/-- C2: on success the three voice lines must have the same length as the bass line.
The code violates this: canCreateChoraleHelper pushes no pitches at a step whose bass
pitch repeats the previous one, so on the valid bass line [0,0,7,0] the solve succeeds
with voice lines of length 3 against a bass of length 4 (the caller's display loop then
reads index 3 of each voice line out of bounds). -/
theorem c2_repeated_bass_note_shortens_voices :
    createChordProgression true [0, 0, 7, 0] [] (setUpChordRels true) =
      some (true, [1, 1, 5, 1]) ∧
    canCreateChorale true [1, 1, 5, 1] (establishNotesInChords 0 true) [0, 0, 7, 0] =
      VoiceResult.found [36, 35, 36] [31, 31, 31] [28, 26, 28] ∧
    ([36, 35, 36] : List Int).length = 3 ∧ ([0, 0, 7, 0] : List Int).length = 4 := by
  refine ⟨?_, ?_, by decide, by decide⟩
  · simp [createChordProgression, createChordProgressionRec, setUpChordRels,
      distanceToChord, normalizeDistance, listAt]
  · simp [canCreateChorale, canCreateChoraleTail, canCreateChoraleHelper,
      establishNotesInChords, establishLoopMajor, fillMajorChordVector,
      fillMinorChordVector, fillDimChordVector, normalizeStartNote, nextLowerNote,
      nextLowerNoteGo, nextHigherNote, nextHigherNoteGo, distanceToChord,
      normalizeDistance, listAt, SOPRANO_MAX, SOPRANO_MIN, ALTO_MAX, ALTO_MIN,
      TENOR_MAX, TENOR_MIN]

/-- C3 counterexample: the claim says every returned pitch, including those at the
final chord slot, lies in its voice range.  On the valid bass line [5,7,16,17] (major,
tonic 5) the solve succeeds, but the alto pitch at the final slot is 17, below
ALTO_MIN = 19: the final pushes of the helper are never range-checked because the
base case returns before the top-of-call check of the next step. -/
theorem c3_final_slot_out_of_range :
    createChordProgression true [5, 7, 16, 17] [] (setUpChordRels true) =
      some (true, [1, 2, 5, 1]) ∧
    canCreateChorale true [1, 2, 5, 1] (establishNotesInChords 5 true) [5, 7, 16, 17] =
      VoiceResult.found [29, 26, 24, 24] [24, 22, 19, 17] [21, 19, 19, 17] ∧
    ([24, 22, 19, 17] : List Int).getLast? = some 17 ∧ (17 : Int) < ALTO_MIN := by
  refine ⟨?_, ?_, by decide, by decide⟩
  · simp [createChordProgression, createChordProgressionRec, setUpChordRels,
      distanceToChord, normalizeDistance, listAt]
  · simp [canCreateChorale, canCreateChoraleTail, canCreateChoraleHelper,
      establishNotesInChords, establishLoopMajor, fillMajorChordVector,
      fillMinorChordVector, fillDimChordVector, normalizeStartNote, nextLowerNote,
      nextLowerNoteGo, nextHigherNote, nextHigherNoteGo, distanceToChord,
      normalizeDistance, listAt, SOPRANO_MAX, SOPRANO_MIN, ALTO_MAX, ALTO_MIN,
      TENOR_MAX, TENOR_MIN]

/-- C4: in a minor key the degree-8 (borrowed major-VII) catalog entry should be a
major triad rooted at distance 10 from the tonic, the pitch that the minor
distance-to-degree table maps to degree 8.  The code's distance bookkeeping instead
roots it at distance 11 (for tonic 0 the entry starts at pitch 11), inconsistent with
distanceToChord, which sends distance 10 to degree 8 and distance 11 to degree 7. -/
theorem c4_minor_degree8_rooted_at_11 :
    (establishNotesInChords 0 false).getD 8 [] =
      [11, 15, 18, 23, 27, 30, 35, 39, 42] ∧
    distanceToChord false 10 = 8 ∧ distanceToChord false 11 = 7 := by
  refine ⟨?_, ?_, ?_⟩
  · simp [establishNotesInChords, establishLoopMinor, fillMajorChordVector,
      fillMinorChordVector, fillDimChordVector, normalizeStartNote, SOPRANO_MAX]
  · simp [distanceToChord, normalizeDistance]
  · simp [distanceToChord, normalizeDistance]

/-- C7 counterexample: the claim asserts that whenever the previous chord is degree 5,
the soprano holds the leading tone and the bass rises, the soprano steps up by one and
the leading-tone flag is set for the following step.  When the bass rises by exactly 5
the closest-upward branch runs instead and the flag is NOT set: at step 2 of the real
solve of [0,7,12,21,14,19,12] (tonic 0, chords [1,5,1,6,2,5,1], soprano on the leading
tone 35, bass rising 7 to 12) the code's continuation differs from the continuation
with the flag set, so the flag was left clear. -/
theorem c7_rise_of_fourth_keeps_flag_clear :
    listAt [1, 5, 1, 6, 2, 5, 1] ((2 : Int) - 1) = some 5 ∧
    listAt [0, 7, 12, 21, 14, 19, 12] (1 : Int) = some 7 ∧
    listAt [0, 7, 12, 21, 14, 19, 12] (2 : Int) = some 12 ∧
    distanceToChord true (35 - 0) = 7 ∧
    canCreateChoraleHelper true [1, 5, 1, 6, 2, 5, 1] (establishNotesInChords 0 true)
      [36, 35] [31, 31] [28, 26] [0, 7, 12, 21, 14, 19, 12] 2 false ≠
    canCreateChoraleHelper true [1, 5, 1, 6, 2, 5, 1] (establishNotesInChords 0 true)
      [36, 35, 36] [31, 31, 31] [28, 26, 28] [0, 7, 12, 21, 14, 19, 12] 3 true := by
  refine ⟨by decide, by decide, by decide, by simp [distanceToChord,
    normalizeDistance], ?_⟩
  intro hcontra
  have h1 : canCreateChoraleHelper true [1, 5, 1, 6, 2, 5, 1]
      (establishNotesInChords 0 true) [36, 35] [31, 31] [28, 26]
      [0, 7, 12, 21, 14, 19, 12] 2 false =
      VoiceResult.found [36, 35, 36, 36, 38, 38, 40] [31, 31, 31, 28, 29, 31, 31]
        [28, 26, 28, 28, 29, 31, 31] := by
    simp [canCreateChoraleHelper, establishNotesInChords, establishLoopMajor,
      fillMajorChordVector, fillMinorChordVector, fillDimChordVector,
      normalizeStartNote, nextLowerNote, nextLowerNoteGo, nextHigherNote,
      nextHigherNoteGo, distanceToChord, normalizeDistance, listAt, SOPRANO_MAX,
      SOPRANO_MIN, ALTO_MAX, ALTO_MIN, TENOR_MAX, TENOR_MIN]
  have h2 : canCreateChoraleHelper true [1, 5, 1, 6, 2, 5, 1]
      (establishNotesInChords 0 true) [36, 35, 36] [31, 31, 31] [28, 26, 28]
      [0, 7, 12, 21, 14, 19, 12] 3 true =
      VoiceResult.found [36, 35, 36, 33, 33, 35, 36] [31, 31, 31, 28, 29, 31, 31]
        [28, 26, 28, 28, 29, 31, 31] := by
    simp [canCreateChoraleHelper, establishNotesInChords, establishLoopMajor,
      fillMajorChordVector, fillMinorChordVector, fillDimChordVector,
      normalizeStartNote, nextLowerNote, nextLowerNoteGo, nextHigherNote,
      nextHigherNoteGo, distanceToChord, normalizeDistance, listAt, SOPRANO_MAX,
      SOPRANO_MIN, ALTO_MAX, ALTO_MIN, TENOR_MAX, TENOR_MIN]
  rw [h1, h2] at hcontra
  exact absurd hcontra (by decide)

/-- C8 counterexample: the claim says a failing solve leaves no partial data in the
caller-passed accumulators.  On the valid bass line [0,7,5,0] the progression solver
correctly reports failure, but the chords accumulator it mutated in place still holds
the leftover entry [4] instead of being empty. -/
theorem c8_failed_solve_leaves_partial_data :
    createChordProgression true [0, 7, 5, 0] [] (setUpChordRels true) =
      some (false, [4]) ∧ ([4] : List Int) ≠ [] := by
  refine ⟨?_, by decide⟩
  simp [createChordProgression, createChordProgressionRec, setUpChordRels,
    distanceToChord, normalizeDistance, listAt]

/-- C8 (amended): the solvers report success or failure through their return value -
on success the whole chord sequence is delivered, and a failing solve returns false -
but the accumulators the caller passed in may retain partial data after a failure
rather than being discarded: for bass [0,2,7,0] the solver succeeds with the complete
sequence [1,2,5,1], while for bass [0,7,5,0] it fails leaving the residue [4] in the
accumulator. -/
theorem c8_failure_signalled_despite_residue :
    createChordProgression true [0, 2, 7, 0] [] (setUpChordRels true) =
      some (true, [1, 2, 5, 1]) ∧
    createChordProgression true [0, 7, 5, 0] [] (setUpChordRels true) =
      some (false, [4]) := by
  constructor
  · simp [createChordProgression, createChordProgressionRec, setUpChordRels,
      distanceToChord, normalizeDistance, listAt]
  · simp [createChordProgression, createChordProgressionRec, setUpChordRels,
      distanceToChord, normalizeDistance, listAt]

/-- C9 counterexample: the claim says an out-of-range target is surfaced as a distinct
internal error and never causes a silent out-of-bounds access or an out-of-spec return.
In the code there is no error channel at all: a target below the sequence makes
nextLowerNote read chord[-1] (the embedded out-of-bounds access, modelled as none), a
target above it makes nextHigherNote read past the end, and on the opposite sides the
functions silently return the boundary element as if nothing were wrong. -/
theorem c9_oob_access_not_error :
    nextLowerNote [5] 3 = none ∧ nextHigherNote [5] 7 = none ∧
    nextLowerNote [5] 7 = some 5 ∧ nextHigherNote [5] 3 = some 5 := by
  refine ⟨?_, ?_, ?_, ?_⟩
  · simp [nextLowerNote, nextLowerNoteGo, listAt]
  · simp [nextHigherNote, nextHigherNoteGo, listAt]
  · simp [nextLowerNote, nextLowerNoteGo, listAt]
  · simp [nextHigherNote, nextHigherNoteGo, listAt]

/-- C3 (amended) witness: the amended claim applied to the successful solve of the
spec scenario bass [0,2,7,0]: every pitch before the final slot of each returned voice
line lies within that voice's range. -/
theorem c3_witness :
    inVoiceRange SOPRANO_MIN SOPRANO_MAX ([36, 33, 35, 36] : List Int).dropLast ∧
    inVoiceRange ALTO_MIN ALTO_MAX ([31, 29, 31, 31] : List Int).dropLast ∧
    inVoiceRange TENOR_MIN TENOR_MAX ([28, 26, 26, 28] : List Int).dropLast :=
  canCreateChorale_dropLast_in_range true [1, 2, 5, 1] (establishNotesInChords 0 true)
    [0, 2, 7, 0] [36, 33, 35, 36] [31, 29, 31, 31] [28, 26, 26, 28] (by
      simp [canCreateChorale, canCreateChoraleTail, canCreateChoraleHelper,
        establishNotesInChords, establishLoopMajor, fillMajorChordVector,
        fillMinorChordVector, fillDimChordVector, normalizeStartNote, nextLowerNote,
        nextLowerNoteGo, nextHigherNote, nextHigherNoteGo, distanceToChord,
        normalizeDistance, listAt, SOPRANO_MAX, SOPRANO_MIN, ALTO_MAX, ALTO_MIN,
        TENOR_MAX, TENOR_MIN])

/-- C5 witness: the nearest-tone searches applied to the strictly ascending sequence
[0,4,7] with targets 5 (between elements) and 4 (an element). -/
theorem c5_witness :
    ((∃ v, nextLowerNote [0, 4, 7] 5 = some v ∧ v ∈ [0, 4, 7] ∧ v ≤ 5 ∧
      ∀ w ∈ [0, 4, 7], w ≤ 5 → w ≤ v) ∧
     (∃ v, nextHigherNote [0, 4, 7] 5 = some v ∧ v ∈ [0, 4, 7] ∧ 5 ≤ v ∧
      ∀ w ∈ [0, 4, 7], 5 ≤ w → v ≤ w) ∧
     ((5 : Int) ∈ [0, 4, 7] → nextLowerNote [0, 4, 7] 5 = some 5 ∧
      nextHigherNote [0, 4, 7] 5 = some 5)) ∧
    ((4 : Int) ∈ [0, 4, 7] → nextLowerNote [0, 4, 7] 4 = some 4 ∧
      nextHigherNote [0, 4, 7] 4 = some 4) :=
  ⟨c5_nearest_tone_search_correct [0, 4, 7] 5 0 7
      (by simp [List.chain'_cons]) rfl rfl (by decide) (by decide),
   (c5_nearest_tone_search_correct [0, 4, 7] 4 0 7
      (by simp [List.chain'_cons]) rfl rfl (by decide) (by decide)).2.2⟩

/-- C9 (amended) witness: the out-of-range behaviour of both searches on the strictly
ascending sequence [0,4,7], with a target below the first element and a target above
the last. -/
theorem c9_witness :
    nextLowerNote [0, 4, 7] (-1) = none ∧ nextHigherNote [0, 4, 7] (-1) = some 0 ∧
    nextLowerNote [0, 4, 7] 9 = some 7 ∧ nextHigherNote [0, 4, 7] 9 = none :=
  ⟨(c9_out_of_range_targets [0, 4, 7] (-1) 0 7 (by simp [List.chain'_cons]) rfl rfl).1 (by decide),
   (c9_out_of_range_targets [0, 4, 7] (-1) 0 7 (by simp [List.chain'_cons]) rfl rfl).2.2.2 (by decide),
   (c9_out_of_range_targets [0, 4, 7] 9 0 7 (by simp [List.chain'_cons]) rfl rfl).2.1 (by decide),
   (c9_out_of_range_targets [0, 4, 7] 9 0 7 (by simp [List.chain'_cons]) rfl rfl).2.2.1 (by decide)⟩

/-- C7 (amended) witness: the leading-tone step applied at step 3 of the real solve of
bass [2,4,1,2] in a major key on tonic 2: the previous chord is degree 5, the soprano
holds the leading tone 37, the bass rises 1 to 2 (not by a fourth), and the step
resolves the soprano to 38 = 37 + 1 with the flag set for the following step. -/
theorem c7_step_witness :
    distanceToChord true (37 - 2) = 7 ∧
    canCreateChoraleHelper true [1, 2, 5, 1] (establishNotesInChords 2 true)
      [38, 35, 37] [33, 31, 33] [30, 28, 28] [2, 4, 1, 2] 3 false =
    canCreateChoraleHelper true [1, 2, 5, 1] (establishNotesInChords 2 true)
      [38, 35, 37, 38] [33, 31, 33, 33] [30, 28, 28, 26] [2, 4, 1, 2] 4 true := by
  constructor
  · simp [distanceToChord, normalizeDistance]
  · have h := c7_step true [1, 2, 5, 1] (establishNotesInChords 2 true) [38, 35, 37]
      [33, 31, 33] [30, 28, 28] [2, 4, 1, 2] 3 false 37 33 28 2 1 2 1 33 26
      [2, 6, 9, 14, 18, 21, 26, 30, 33, 38, 42] (by decide) rfl rfl rfl (by decide)
      (by decide) (by decide) (by decide) (by decide) (by decide) (by decide)
      (by decide) (by simp [distanceToChord, normalizeDistance]) (by decide)
      (by simp [establishNotesInChords, establishLoopMajor, fillMajorChordVector,
      fillMinorChordVector, fillDimChordVector, normalizeStartNote, listAt,
      SOPRANO_MAX])
      (by simp [nextLowerNote, nextLowerNoteGo, listAt])
      (by simp [nextLowerNote, nextLowerNoteGo, listAt])
    rw [h]
    norm_num

/-- C10 witness: the four flag-step rules applied at concrete reachable states of the
solves of bass [0,7,12,21,14,19,12] (tonic 0), bass [2,4,1,2] (tonic 2) and bass
[0,0,7,0] (tonic 0), each with the leading-tone flag set. -/
theorem c10_flag_steps_witness :
    (canCreateChoraleHelper true [1, 5, 1, 6, 2, 5, 1] (establishNotesInChords 0 true)
      [36, 35] [31, 31] [28, 26] [0, 7, 12, 21, 14, 19, 12] 2 true =
     canCreateChoraleHelper true [1, 5, 1, 6, 2, 5, 1] (establishNotesInChords 0 true)
      [36, 35, 36] [31, 31, 31] [28, 26, 28] [0, 7, 12, 21, 14, 19, 12] 3 true) ∧
    (canCreateChoraleHelper true [1, 5, 1, 6, 2, 5, 1] (establishNotesInChords 0 true)
      [36, 35, 36] [31, 31, 31] [28, 26, 28] [0, 7, 12, 21, 14, 19, 12] 3 true =
     canCreateChoraleHelper true [1, 5, 1, 6, 2, 5, 1] (establishNotesInChords 0 true)
      [36, 35, 36, 33] [31, 31, 31, 28] [28, 26, 28, 28] [0, 7, 12, 21, 14, 19, 12] 4
      false) ∧
    (canCreateChoraleHelper true [1, 2, 5, 1] (establishNotesInChords 2 true)
      [38, 35, 37] [33, 31, 33] [30, 28, 28] [2, 4, 1, 2] 3 true =
     canCreateChoraleHelper true [1, 2, 5, 1] (establishNotesInChords 2 true)
      [38, 35, 37, 38] [33, 31, 33, 33] [30, 28, 28, 26] [2, 4, 1, 2] 4 true) ∧
    (canCreateChoraleHelper true [1, 1, 5, 1] (establishNotesInChords 0 true)
      [36] [31] [28] [0, 0, 7, 0] 1 true =
     canCreateChoraleHelper true [1, 1, 5, 1] (establishNotesInChords 0 true)
      [36] [31] [28] [0, 0, 7, 0] 2 true) := by
  refine ⟨?_, ?_, ?_, ?_⟩
  · have h := (c10_flag_steps true [1, 5, 1, 6, 2, 5, 1] (establishNotesInChords 0
      true) [36, 35] [31, 31] [28, 26] [0, 7, 12, 21, 14, 19, 12] 2 35 31 26 12 7 0 0
      1 36 31 28 [0, 4, 7, 12, 16, 19, 24, 28, 31, 36, 40, 43] (by decide) rfl rfl rfl
      (by decide) (by decide) (by decide) (by decide)).1 (by decide) (by decide)
      (by simp [establishNotesInChords, establishLoopMajor, fillMajorChordVector,
      fillMinorChordVector, fillDimChordVector, normalizeStartNote, listAt,
      SOPRANO_MAX])
      (by simp [nextHigherNote, nextHigherNoteGo, listAt])
      (by simp [nextHigherNote, nextHigherNoteGo, listAt])
      (by simp [nextHigherNote, nextHigherNoteGo, listAt])
    rw [h]
    norm_num [SOPRANO_MAX, ALTO_MAX, TENOR_MAX, listAt]
    all_goals exact fun hc => absurd hc (by decide)
  · have h := (c10_flag_steps true [1, 5, 1, 6, 2, 5, 1] (establishNotesInChords 0
      true) [36, 35, 36] [31, 31, 31] [28, 26, 28] [0, 7, 12, 21, 14, 19, 12] 3 36 31
      28 21 12 0 1 6 33 28 28 [9, 12, 16, 21, 24, 28, 33, 36, 40] (by decide) rfl rfl
      rfl (by decide) (by decide) (by decide) (by decide)).2.1 (by decide) (by decide)
      (by decide) (by decide) (by simp [distanceToChord, normalizeDistance])
      (by decide) (by simp [establishNotesInChords, establishLoopMajor, fillMajorChordVector,
      fillMinorChordVector, fillDimChordVector, normalizeStartNote, listAt,
      SOPRANO_MAX])
      (by simp [nextLowerNote, nextLowerNoteGo, listAt])
      (by simp [nextLowerNote, nextLowerNoteGo, listAt])
      (by simp [nextLowerNote, nextLowerNoteGo, listAt])
    rw [h]
    norm_num [listAt]
    all_goals exact fun hc => absurd hc (by decide)
  · have h := (c10_flag_steps true [1, 2, 5, 1] (establishNotesInChords 2 true)
      [38, 35, 37] [33, 31, 33] [30, 28, 28] [2, 4, 1, 2] 3 37 33 28 2 1 2 5 1 38 33
      26 [2, 6, 9, 14, 18, 21, 26, 30, 33, 38, 42] (by decide) rfl rfl rfl (by decide)
      (by decide) (by decide) (by decide)).2.2.1 (by decide) (by decide) (by decide)
      (by decide) (by simp [distanceToChord, normalizeDistance]) (by decide)
      (by simp [establishNotesInChords, establishLoopMajor, fillMajorChordVector,
      fillMinorChordVector, fillDimChordVector, normalizeStartNote, listAt,
      SOPRANO_MAX])
      (by simp [nextLowerNote, nextLowerNoteGo, listAt])
      (by simp [nextLowerNote, nextLowerNoteGo, listAt])
    rw [h]
    norm_num
  · have h := (c10_flag_steps true [1, 1, 5, 1] (establishNotesInChords 0 true)
      [36] [31] [28] [0, 0, 7, 0] 1 36 31 28 0 0 0 0 0 0 0 0 [] (by decide) rfl rfl
      rfl (by decide) (by decide) (by decide) (by decide)).2.2.2 (by decide)
    exact h

end ChoraleSolver




